import Mathlib

/-!
# Verification of the Korean CEX aggregator

A shallow embedding of the repository's price-resolution cascade
(`api_prices.py`), per-exchange balance and report operations
(`api_upbit.py`, `api_bithumb.py`, `api_coinone.py`, `api_korbit.py`),
and the cross-exchange aggregator (`cex_agg.py`), together with proofs
about them.

Modelling conventions:
* Python `float` amounts and prices are modelled as `ℚ`; the claims
  under study are about control flow and comparisons, not float rounding.
* Network responses are explicit inputs: each operation takes the raw
  payload (or a transport outcome) as a parameter.  Payloads are modelled
  by the fields the code actually reads; JSON shapes that would raise an
  uncaught `TypeError`/`AttributeError` in Python because the payload is
  not a dict/list at all are outside the model.
* An operation that can raise a Python exception is modelled with
  `Except String` (the `.error` constructor is a raised exception);
  an operation that only ever returns normally is a plain function.
* Where a function issues network requests, the embedding additionally
  returns how many requests were issued (or which sources were hit),
  so that "no network call" claims are statable.
-/

namespace CexAgg

/-- Result of applying Python `float(...)` to a JSON field: either a
numeric value or a value on which `float` raises `ValueError`/`TypeError`. -/
inductive PyNum
  | val (q : ℚ)
  | invalid
deriving DecidableEq

/-- `ExchangePrice` dataclass of `api_prices.py`: exchange name, price and
optional error string. -/
structure ExchangePrice where
  exchange : String
  price : ℚ
  error : Option String
deriving DecidableEq

/-- `ExchangePrice.is_error` property: true iff `error is not None`. -/
def ExchangePrice.is_error (p : ExchangePrice) : Bool :=
  p.error.isSome

/-- Python `str.lower()`, modelled as ASCII per-character lowering (the
currency and fiat codes involved are ASCII). -/
def pyLower (s : String) : String := ⟨s.data.map Char.toLower⟩

/-- Python `str.upper()`, modelled as ASCII per-character uppering. -/
def pyUpper (s : String) : String := ⟨s.data.map Char.toUpper⟩

/-- Python `str(x)` on an `Option String` field obtained via `.get`:
`None` prints as `"None"`. -/
def pyStr : Option String → String
  | none => "None"
  | some s => s

/-! ## Price sources (`api_prices.py`) -/

/-- Outcome of `PriceAPI._make_request` on the Upbit ticker URL: either the
error string built from a caught `RequestException`, or a JSON array of
ticker dicts, each carrying its (possibly absent) `trade_price` field. -/
inductive UpbitPriceResp
  | transport_error (s : String)
  | tickers (l : List (Option PyNum))
deriving DecidableEq

/-- `PriceAPI.get_upbit_price` (`api_prices.py:52-67`).  The `Bool`
component records whether a network request was issued. -/
def get_upbit_price (coin : String) (resp : UpbitPriceResp) :
    ExchangePrice × Bool :=
  if pyLower coin = "krw" then (⟨"Upbit", 1, none⟩, false)
  else
    match resp with
    | .transport_error s => (⟨"Upbit", 0, some s⟩, true)
    | .tickers [] => (⟨"Upbit", 0, some "Error: Empty response from API"⟩, true)
    | .tickers (none :: _) => (⟨"Upbit", 0, none⟩, true)
    | .tickers (some (.val q) :: _) => (⟨"Upbit", q, none⟩, true)
    | .tickers (some .invalid :: _) =>
        (⟨"Upbit", 0, some "Error: Invalid price data"⟩, true)

/-- Outcome of `PriceAPI._make_request` on the Bithumb ticker URL: error
string, or a dict with its `status` field (`none` = key absent) and the
`closing_price` field of its `data` sub-dict. -/
inductive BithumbPriceResp
  | transport_error (s : String)
  | payload (status : Option String) (closing_price : Option PyNum)
deriving DecidableEq

/-- `PriceAPI.get_bithumb_price` (`api_prices.py:69-84`). -/
def get_bithumb_price (coin : String) (resp : BithumbPriceResp) :
    ExchangePrice × Bool :=
  if pyLower coin = "krw" then (⟨"Bithumb", 1, none⟩, false)
  else
    match resp with
    | .transport_error s => (⟨"Bithumb", 0, some s⟩, true)
    | .payload status cp =>
      if status = some "0000" then
        match cp with
        | none => (⟨"Bithumb", 0, none⟩, true)
        | some (.val q) => (⟨"Bithumb", q, none⟩, true)
        | some .invalid => (⟨"Bithumb", 0, some "Error: Invalid price data"⟩, true)
      else
        (⟨"Bithumb", 0,
          some ("Error: API returned status " ++ pyStr status)⟩, true)

/-- Outcome of `PriceAPI._make_request` on the Coinone ticker URL: error
string, or a dict with `errorCode` and `last` fields. -/
inductive CoinonePriceResp
  | transport_error (s : String)
  | payload (errorCode : Option String) (last : Option PyNum)
deriving DecidableEq

/-- `PriceAPI.get_coinone_price` (`api_prices.py:86-101`). -/
def get_coinone_price (coin : String) (resp : CoinonePriceResp) :
    ExchangePrice × Bool :=
  if pyLower coin = "krw" then (⟨"Coinone", 1, none⟩, false)
  else
    match resp with
    | .transport_error s => (⟨"Coinone", 0, some s⟩, true)
    | .payload errorCode last =>
      if errorCode = some "0" then
        match last with
        | none => (⟨"Coinone", 0, none⟩, true)
        | some (.val q) => (⟨"Coinone", q, none⟩, true)
        | some .invalid => (⟨"Coinone", 0, some "Error: Invalid price data"⟩, true)
      else
        (⟨"Coinone", 0,
          some ("Error: API returned errorCode " ++ pyStr errorCode)⟩, true)

/-- Outcome of `PriceAPI._make_request` on the Coingecko URL: error string,
or the `krw` field of the token entry (`none` = absent, defaulting to `0`;
the `token_map` lookup only affects the URL and is not value-relevant). -/
inductive GeckoPriceResp
  | transport_error (s : String)
  | payload (krw : Option PyNum)
deriving DecidableEq

/-- `PriceAPI.get_coingecko_price` (`api_prices.py:103-118`). -/
def get_coingecko_price (coin : String) (resp : GeckoPriceResp) :
    ExchangePrice × Bool :=
  if pyLower coin = "krw" then (⟨"Coingecko", 1, none⟩, false)
  else
    match resp with
    | .transport_error s => (⟨"Coingecko", 0, some s⟩, true)
    | .payload none => (⟨"Coingecko", 0, none⟩, true)
    | .payload (some (.val q)) => (⟨"Coingecko", q, none⟩, true)
    | .payload (some .invalid) =>
        (⟨"Coingecko", 0, some ("Error: Unable to get price for " ++ coin)⟩, true)

/-- One fixed network state: the response each price source would serve. -/
structure PriceNetwork where
  upbit : UpbitPriceResp
  bithumb : BithumbPriceResp
  coinone : CoinonePriceResp
  gecko : GeckoPriceResp

/-- The loop body of `PriceAPI.get_first_valid_price`: walk the evaluated
`(quote-and-hit-flag, exchange_name)` pairs, returning on the first quote
with `not result.is_error and float(result.price) > 0`, else the sentinel.
The second component accumulates the names of sources that issued a
network request. -/
def firstValidAux : List ((ExchangePrice × Bool) × String) → (ℚ × String) × List String
  | [] => ((0, "No valid price found"), [])
  | ((result, hit), name) :: rest =>
    let reqs := if hit then [name] else []
    if result.is_error = false ∧ result.price > 0 then
      ((result.price, name), reqs)
    else
      let r := firstValidAux rest
      (r.1, reqs ++ r.2)

/-- `PriceAPI.get_first_valid_price` (`api_prices.py:120-134`): the cascade
over Upbit, Bithumb, Coinone, Coingecko in that order.  Returns the
`(price, exchange_name)` pair plus the list of sources that were actually
hit with a network request. -/
def get_first_valid_price (symbol : String) (net : PriceNetwork) :
    (ℚ × String) × List String :=
  firstValidAux
    [(get_upbit_price symbol net.upbit, "Upbit"),
     (get_bithumb_price symbol net.bithumb, "Bithumb"),
     (get_coinone_price symbol net.coinone, "Coinone"),
     (get_coingecko_price symbol net.gecko, "Coingecko")]

/-- The four quotes the cascade inspects, in source order, with their
attribution names. -/
def quotes (symbol : String) (net : PriceNetwork) : List (ExchangePrice × String) :=
  [((get_upbit_price symbol net.upbit).1, "Upbit"),
   ((get_bithumb_price symbol net.bithumb).1, "Bithumb"),
   ((get_coinone_price symbol net.coinone).1, "Coinone"),
   ((get_coingecko_price symbol net.gecko).1, "Coingecko")]

/-- Reference cascade taken from the claim's words: the `(price, name)` of
the first quote with `error == null` and `price > 0`; if every quote is
invalid, `(0.0, "No valid price found")`. -/
def referenceCascade : List (ExchangePrice × String) → ℚ × String
  | [] => (0, "No valid price found")
  | (q, name) :: rest =>
    if q.error = none ∧ q.price > 0 then (q.price, name) else referenceCascade rest

/-- Reference consultation order taken from the claim's words: every source
up to and including the first valid one is consulted; later sources never
are (all four if no source is valid). -/
def consultedSpec : List (ExchangePrice × String) → List String
  | [] => []
  | (q, name) :: rest =>
    if q.error = none ∧ q.price > 0 then [name] else name :: consultedSpec rest

lemma is_error_false_iff (p : ExchangePrice) :
    p.is_error = false ↔ p.error = none := by
  cases h : p.error <;> simp [ExchangePrice.is_error, h]

/-- On a list of already-evaluated quotes that all issued a network
request, the instrumented loop computes exactly the reference cascade and
the reference consultation list. -/
lemma firstValidAux_all_hit (l : List ((ExchangePrice × Bool) × String))
    (h : ∀ p ∈ l, p.1.2 = true) :
    firstValidAux l =
      (referenceCascade (l.map fun p => (p.1.1, p.2)),
       consultedSpec (l.map fun p => (p.1.1, p.2))) := by
  induction l with
  | nil => rfl
  | cons hd tl ih =>
    obtain ⟨⟨result, hit⟩, name⟩ := hd
    have hhit : hit = true := h _ (List.mem_cons_self _ _)
    subst hhit
    have htl : ∀ p ∈ tl, p.1.2 = true := fun p hp => h p (List.mem_cons_of_mem _ hp)
    by_cases hc : result.error = none ∧ result.price > 0
    · simp only [firstValidAux, List.map_cons, referenceCascade, consultedSpec,
        if_pos hc, if_true]
      rw [if_pos]
      exact ⟨(is_error_false_iff result).mpr hc.1, hc.2⟩
    · have hc' : ¬ (result.is_error = false ∧ result.price > 0) := by
        intro hcontra
        exact hc ⟨(is_error_false_iff result).mp hcontra.1, hcontra.2⟩
      simp only [firstValidAux, List.map_cons, referenceCascade, consultedSpec,
        if_neg hc, if_neg hc', if_true, ih htl, List.singleton_append]

lemma get_upbit_price_hit (symbol : String) (r : UpbitPriceResp)
    (h : ¬ pyLower symbol = "krw") : (get_upbit_price symbol r).2 = true := by
  unfold get_upbit_price
  rw [if_neg h]
  rcases r with s | (_ | ⟨(_ | (q | _)), ts⟩) <;> rfl

lemma get_bithumb_price_hit (symbol : String) (r : BithumbPriceResp)
    (h : ¬ pyLower symbol = "krw") : (get_bithumb_price symbol r).2 = true := by
  unfold get_bithumb_price
  rw [if_neg h]
  rcases r with s | ⟨status, cp⟩
  · rfl
  · dsimp only
    split
    · rcases cp with _ | (q | _) <;> rfl
    · rfl

lemma get_coinone_price_hit (symbol : String) (r : CoinonePriceResp)
    (h : ¬ pyLower symbol = "krw") : (get_coinone_price symbol r).2 = true := by
  unfold get_coinone_price
  rw [if_neg h]
  rcases r with s | ⟨ec, last⟩
  · rfl
  · dsimp only
    split
    · rcases last with _ | (q | _) <;> rfl
    · rfl

lemma get_coingecko_price_hit (symbol : String) (r : GeckoPriceResp)
    (h : ¬ pyLower symbol = "krw") : (get_coingecko_price symbol r).2 = true := by
  unfold get_coingecko_price
  rw [if_neg h]
  rcases r with s | (_ | (q | _)) <;> rfl

/-- If the loop returns, its result is either the sentinel pair or a
positive price attributed to one of the listed source names. -/
lemma firstValidAux_price_cases (l : List ((ExchangePrice × Bool) × String)) :
    (firstValidAux l).1 = (0, "No valid price found") ∨
    (0 < (firstValidAux l).1.1 ∧ (firstValidAux l).1.2 ∈ l.map (fun p => p.2)) := by
  induction l with
  | nil => left; rfl
  | cons hd tl ih =>
    obtain ⟨⟨result, hit⟩, name⟩ := hd
    by_cases hc : result.is_error = false ∧ result.price > 0
    · right
      simp only [firstValidAux, if_pos hc, List.map_cons]
      exact ⟨hc.2, List.mem_cons_self _ _⟩
    · simp only [firstValidAux, if_neg hc, List.map_cons]
      rcases ih with h0 | ⟨hpos, hmem⟩
      · left; exact h0
      · right; exact ⟨hpos, List.mem_cons_of_mem _ hmem⟩

/-- C1: `PriceAPI.get_first_valid_price` evaluates Upbit, Bithumb, Coinone,
Coingecko in that fixed order; for the local fiat symbol `krw`
(case-insensitive) it returns `(1.0, "Upbit")` — Upbit being the source
under evaluation — without any network request; otherwise it returns
`(price, source-name)` of the first source whose quote has `error == null`
and `price > 0`, consulting exactly the sources up to and including that
one; if every quote is invalid it returns `(0.0, "No valid price found")`
after consulting all four. -/
theorem C1_get_first_valid_price_cascade (symbol : String) (net : PriceNetwork) :
    (pyLower symbol = "krw" →
      get_first_valid_price symbol net = ((1, "Upbit"), [])) ∧
    (¬ pyLower symbol = "krw" →
      get_first_valid_price symbol net =
        (referenceCascade (quotes symbol net), consultedSpec (quotes symbol net))) := by
  constructor
  · intro h
    have hu : get_upbit_price symbol net.upbit = (⟨"Upbit", 1, none⟩, false) := by
      unfold get_upbit_price
      rw [if_pos h]
    unfold get_first_valid_price
    rw [hu]
    simp only [firstValidAux]
    rw [if_pos ⟨rfl, by norm_num⟩]
    simp
  · intro h
    have hhits : ∀ p ∈ [(get_upbit_price symbol net.upbit, "Upbit"),
        (get_bithumb_price symbol net.bithumb, "Bithumb"),
        (get_coinone_price symbol net.coinone, "Coinone"),
        (get_coingecko_price symbol net.gecko, "Coingecko")], p.1.2 = true := by
      intro p hp
      simp only [List.mem_cons, List.not_mem_nil, or_false] at hp
      rcases hp with rfl | rfl | rfl | rfl
      · exact get_upbit_price_hit symbol net.upbit h
      · exact get_bithumb_price_hit symbol net.bithumb h
      · exact get_coinone_price_hit symbol net.coinone h
      · exact get_coingecko_price_hit symbol net.gecko h
    unfold get_first_valid_price
    rw [firstValidAux_all_hit _ hhits]
    rfl

/-- A network state in which every price source fails with a transport
error. -/
def allDownNet : PriceNetwork :=
  ⟨.transport_error "Error: down", .transport_error "Error: down",
   .transport_error "Error: down", .transport_error "Error: down"⟩

/-- Witness for C1: the fiat branch at symbol `KRW` and the cascade branch
at symbol `btc`, on a concrete network state. -/
theorem C1_get_first_valid_price_cascade_witness :
    get_first_valid_price "KRW" allDownNet = ((1, "Upbit"), []) ∧
    get_first_valid_price "btc" allDownNet =
      (referenceCascade (quotes "btc" allDownNet),
       consultedSpec (quotes "btc" allDownNet)) :=
  ⟨(C1_get_first_valid_price_cascade "KRW" allDownNet).1 (by decide),
   (C1_get_first_valid_price_cascade "btc" allDownNet).2 (by decide)⟩

/-- C10 (implicit invariant): the pair `(price, source)` returned by
`PriceAPI.get_first_valid_price` satisfies `price ≥ 0`; `price > 0` iff
`source` is one of the four exchange names; and `price = 0` iff `source`
is the sentinel `"No valid price found"`. -/
theorem C10_unpriced_case_detectable (symbol : String) (net : PriceNetwork) :
    0 ≤ (get_first_valid_price symbol net).1.1 ∧
    (0 < (get_first_valid_price symbol net).1.1 ↔
      (get_first_valid_price symbol net).1.2 ∈
        ["Upbit", "Bithumb", "Coinone", "Coingecko"]) ∧
    ((get_first_valid_price symbol net).1.1 = 0 ↔
      (get_first_valid_price symbol net).1.2 = "No valid price found") := by
  have hc := firstValidAux_price_cases
    [(get_upbit_price symbol net.upbit, "Upbit"),
     (get_bithumb_price symbol net.bithumb, "Bithumb"),
     (get_coinone_price symbol net.coinone, "Coinone"),
     (get_coingecko_price symbol net.gecko, "Coingecko")]
  have heq : get_first_valid_price symbol net = firstValidAux
    [(get_upbit_price symbol net.upbit, "Upbit"),
     (get_bithumb_price symbol net.bithumb, "Bithumb"),
     (get_coinone_price symbol net.coinone, "Coinone"),
     (get_coingecko_price symbol net.gecko, "Coingecko")] := rfl
  rw [← heq] at hc
  rcases hc with h0 | ⟨hpos, hmem⟩
  · rw [show (get_first_valid_price symbol net).1.1 = 0 from by rw [h0],
       show (get_first_valid_price symbol net).1.2 = "No valid price found"
         from by rw [h0]]
    refine ⟨le_refl 0, ?_, by simp⟩
    constructor
    · intro hlt; exact absurd hlt (lt_irrefl 0)
    · intro hmem; exact absurd hmem (by decide)
  · have hmem' : (get_first_valid_price symbol net).1.2 ∈
        ["Upbit", "Bithumb", "Coinone", "Coingecko"] := by
      simpa using hmem
    refine ⟨le_of_lt hpos, ⟨fun _ => hmem', fun _ => hpos⟩, ?_⟩
    constructor
    · intro h0; exact absurd h0 hpos.ne'
    · intro hs; exact absurd (hs ▸ hmem') (by decide)

/-! ## Balances -/

/-- Normalised balance shape `{currency, balance}` shared by the clients. -/
structure Balance where
  currency : String
  balance : ℚ
deriving DecidableEq

/-- A raw account entry of the Upbit/Bithumb accounts endpoints:
`currency`, `balance` and `locked` amounts (string fields already parsed
to numbers). -/
structure RawAccount where
  currency : String
  balance : ℚ
  locked : ℚ
deriving DecidableEq

namespace UpbitAPI

/-- `UpbitAPI.get_balances` (`api_upbit.py:47-62`), success path (HTTP 200
with parsed JSON): each balance is replaced by `balance + locked`; when a
truthy `currencies` list is given the result is FILTERED to the requested
currencies — no placeholder is added for an absent currency. -/
def get_balances (raw : List RawAccount) (currencies : Option (List String)) :
    List Balance :=
  let balances := raw.map fun a => Balance.mk a.currency (a.balance + a.locked)
  match currencies with
  | some cs => if cs.isEmpty then balances
               else balances.filter fun b => cs.contains b.currency
  | none => balances

/-- `UpbitAPI.get_nonzero_balances` (`api_upbit.py:68-76`): keeps balances
with positive total whose uppercased code is not in `EXCLUDED_COINS =
['ETHW', 'ETHF']`. -/
def get_nonzero_balances (raw : List RawAccount) : List Balance :=
  (get_balances raw none).filter fun b =>
    decide (0 < b.balance) && !(["ETHW", "ETHF"].contains (pyUpper b.currency))

end UpbitAPI

namespace BithumbAPI

/-- The accounts list `BithumbAPI.get_balances` builds from the raw
`/v1/accounts` response (`api_bithumb.py:63`). -/
def accountsOf (response : List RawAccount) : List Balance :=
  response.map fun a => Balance.mk a.currency (a.balance + a.locked)

/-- `BithumbAPI.get_balances` (`api_bithumb.py:46-76`): with no requested
list, the accounts as-is; with a requested list, one entry per requested
currency in order — the first matching account, or a zero placeholder. -/
def get_balances (response : List RawAccount)
    (currencies : Option (List String)) : List Balance :=
  let accounts := accountsOf response
  match currencies with
  | none => accounts
  | some cs => cs.map fun c =>
      match accounts.find? (fun acc => acc.currency == c) with
      | some acc => acc
      | none => Balance.mk c 0

/-- `BithumbAPI.get_nonzero_balances` (`api_bithumb.py:89-97`):
`EXCLUDED_COINS = ['P', 'ETHW', 'ETHF']`. -/
def get_nonzero_balances (response : List RawAccount) : List Balance :=
  (get_balances response none).filter fun b =>
    decide (0 < b.balance) && !(["P", "ETHW", "ETHF"].contains (pyUpper b.currency))

end BithumbAPI

/-- A raw balance entry of Coinone's `/v2.1/account/balance` endpoints:
`available` and `limit` amounts. -/
structure CoinoneRawBalance where
  currency : String
  available : ℚ
  limit : ℚ
deriving DecidableEq

/-- Parsed response of Coinone's balance endpoints: `result != "success"`,
or a list of balance entries. -/
inductive CoinoneBalResp
  | failure
  | success (balances : List CoinoneRawBalance)
deriving DecidableEq

namespace CoinoneAPI

/-- `CoinoneAPI.get_balances` (`api_coinone.py:49-64`): the requested
currencies are sent to the server and its response list is normalised
as-is — no placeholder is added client-side for an absent currency. -/
def get_balances (resp : CoinoneBalResp) : List Balance :=
  match resp with
  | .failure => []
  | .success bs => bs.map fun b => Balance.mk b.currency (b.available + b.limit)

/-- `CoinoneAPI.get_nonzero_balances` (`api_coinone.py:83-98`): keeps
entries with `available + limit > 0`; no currency code is excluded. -/
def get_nonzero_balances (resp : CoinoneBalResp) : List Balance :=
  match resp with
  | .failure => []
  | .success bs =>
    (bs.filter fun b => decide (0 < b.available + b.limit)).map
      fun b => Balance.mk b.currency (b.available + b.limit)

end CoinoneAPI

/-- A raw entry of Korbit's `/v1/user/balances` dict (modelled as an
ordered association list): the key plus the `available` and
`trade_in_use` fields the code reads. -/
structure KorbitRaw where
  currency : String
  available : ℚ
  trade_in_use : ℚ
deriving DecidableEq

/-- The per-currency record `KorbitAPI.get_balances` builds. -/
structure KorbitBalance where
  currency : String
  balance : ℚ
  available : ℚ
  locked : ℚ
deriving DecidableEq

namespace KorbitAPI

/-- `KorbitAPI.get_balances` (`api_korbit.py:49-79`), success path: entries
not in a truthy `currencies` list are skipped (absent requested currencies
are simply missing), and each kept entry is normalised with
`balance = available + trade_in_use`. -/
def get_balances (raw : List KorbitRaw) (currencies : Option (List String)) :
    List KorbitBalance :=
  let kept : List KorbitRaw :=
    match currencies with
    | none => raw
    | some cs => if cs.isEmpty then raw
                 else raw.filter fun r => cs.contains r.currency
  kept.map fun r =>
    KorbitBalance.mk r.currency (r.available + r.trade_in_use)
      r.available r.trade_in_use

/-- `KorbitAPI.get_nonzero_balances` (`api_korbit.py:85-94`):
`EXCLUDED_COINS = ['ethw', 'ethf']`, compared against the lowercased
currency code. -/
def get_nonzero_balances (raw : List KorbitRaw) : List KorbitBalance :=
  (get_balances raw none).filter fun b =>
    decide (0 < b.balance) && !(["ethw", "ethf"].contains (pyLower b.currency))

end KorbitAPI

/-- `find?` on the accounts list either yields the first account with the
requested currency, or yields nothing and no account has that currency. -/
lemma find?_currency_cases (accounts : List Balance) (c : String) :
    (∃ a, accounts.find? (fun acc => acc.currency == c) = some a ∧
        a ∈ accounts ∧ a.currency = c) ∨
    (accounts.find? (fun acc => acc.currency == c) = none ∧
        ∀ a ∈ accounts, a.currency ≠ c) := by
  induction accounts with
  | nil => right; exact ⟨rfl, by simp⟩
  | cons hd tl ih =>
    by_cases hc : hd.currency = c
    · left
      refine ⟨hd, ?_, List.mem_cons_self _ _, hc⟩
      have htrue : (hd.currency == c) = true := beq_iff_eq.mpr hc
      simp only [List.find?, htrue]
    · have hfalse : (hd.currency == c) = false := beq_eq_false_iff_ne.mpr hc
      rcases ih with ⟨a, hfind, hmem, hcur⟩ | ⟨hfind, habs⟩
      · left
        refine ⟨a, ?_, List.mem_cons_of_mem _ hmem, hcur⟩
        simp only [List.find?, hfalse]
        exact hfind
      · right
        refine ⟨?_, ?_⟩
        · simp only [List.find?, hfalse]
          exact hfind
        · intro a ha
          rcases List.mem_cons.mp ha with rfl | ha'
          · exact hc
          · exact habs a ha'

/-- Zipping a list with its own image pairs each element with its image. -/
lemma zip_map_self {α β : Type} (f : α → β) (l : List α) :
    l.zip (l.map f) = l.map fun a => (a, f a) := by
  induction l with
  | nil => rfl
  | cons hd tl ih => simp [ih]

/-- C3 amended: only Bithumb's `get_balances` pads: for every raw response
and non-empty requested list it returns exactly one entry per requested
currency in the requested order — the first matching account when the
currency appears in the raw payload, a zero-balance placeholder when it is
absent (Upbit and Korbit instead filter to the requested currencies, and
Coinone returns the server's response list, so an absent currency is
simply missing there). -/
theorem C3_bithumb_pads_requested_currencies (response : List RawAccount)
    (cs : List String) (hcs : cs ≠ []) :
    (BithumbAPI.get_balances response (some cs)).length = cs.length ∧
    ∀ p ∈ cs.zip (BithumbAPI.get_balances response (some cs)),
      p.2.currency = p.1 ∧
      ((∃ a ∈ BithumbAPI.accountsOf response, a.currency = p.1) →
          p.2 ∈ BithumbAPI.accountsOf response) ∧
      ((∀ a ∈ BithumbAPI.accountsOf response, a.currency ≠ p.1) →
          p.2 = Balance.mk p.1 0) := by
  have hout : BithumbAPI.get_balances response (some cs) = cs.map (fun c =>
      match (BithumbAPI.accountsOf response).find? (fun acc => acc.currency == c) with
      | some acc => acc
      | none => Balance.mk c 0) := rfl
  rw [hout]
  refine ⟨List.length_map _ _, ?_⟩
  rw [zip_map_self]
  intro p hp
  obtain ⟨c, hc, rfl⟩ := List.mem_map.mp hp
  rcases find?_currency_cases (BithumbAPI.accountsOf response) c with
    ⟨a, hfind, hmem, hcur⟩ | ⟨hfind, habs⟩
  · rw [hfind]
    exact ⟨hcur, fun _ => hmem, fun habs' => absurd hcur (habs' a hmem)⟩
  · rw [hfind]
    exact ⟨rfl, fun ⟨a, ha, hac⟩ => absurd hac (habs a ha), fun _ => rfl⟩

/-- Witness for C3's amended theorem at a concrete payload and request. -/
theorem C3_bithumb_pads_requested_currencies_witness :
    (BithumbAPI.get_balances [⟨"BTC", 2, 1⟩] (some ["BTC", "ETH"])).length = 2 := by
  have h := C3_bithumb_pads_requested_currencies [⟨"BTC", 2, 1⟩]
    ["BTC", "ETH"] (by decide)
  simpa using h.1

/-- Counterexample to C3 as stated: Upbit's `get_balances`, asked for
`["BTC", "ETH"]` against a payload holding only BTC, returns one entry,
not the requested-currency count of two — no zero placeholder is added. -/
theorem C3_counterexample :
    (UpbitAPI.get_balances [⟨"BTC", 1, 0⟩] (some ["BTC", "ETH"])).length ≠
      (["BTC", "ETH"] : List String).length := by
  decide

/-- C6: each client's `get_nonzero_balances` keeps exactly the balances
whose total (available plus locked) is strictly positive and whose
case-normalised currency code is not in that client's excluded set —
`{ETHW, ETHF}` for Upbit, `{P, ETHW, ETHF}` for Bithumb, the empty set for
Coinone, `{ethw, ethf}` for Korbit. -/
theorem C6_nonzero_balances_exclusion :
    (∀ (raw : List RawAccount) (b : Balance),
      b ∈ UpbitAPI.get_nonzero_balances raw ↔
        b ∈ raw.map (fun a => Balance.mk a.currency (a.balance + a.locked)) ∧
          0 < b.balance ∧ pyUpper b.currency ∉ ["ETHW", "ETHF"]) ∧
    (∀ (response : List RawAccount) (b : Balance),
      b ∈ BithumbAPI.get_nonzero_balances response ↔
        b ∈ BithumbAPI.accountsOf response ∧
          0 < b.balance ∧ pyUpper b.currency ∉ ["P", "ETHW", "ETHF"]) ∧
    (∀ (bs : List CoinoneRawBalance) (b : Balance),
      b ∈ CoinoneAPI.get_nonzero_balances (.success bs) ↔
        ∃ r ∈ bs, 0 < r.available + r.limit ∧
          b = Balance.mk r.currency (r.available + r.limit)) ∧
    (∀ (raw : List KorbitRaw) (b : KorbitBalance),
      b ∈ KorbitAPI.get_nonzero_balances raw ↔
        b ∈ raw.map (fun r => KorbitBalance.mk r.currency
              (r.available + r.trade_in_use) r.available r.trade_in_use) ∧
          0 < b.balance ∧ pyLower b.currency ∉ ["ethw", "ethf"]) := by
  refine ⟨?_, ?_, ?_, ?_⟩
  · intro raw b
    simp [UpbitAPI.get_nonzero_balances, UpbitAPI.get_balances,
      List.mem_filter, and_assoc]
  · intro response b
    simp [BithumbAPI.get_nonzero_balances, BithumbAPI.get_balances,
      List.mem_filter, and_assoc]
  · intro bs b
    simp only [CoinoneAPI.get_nonzero_balances, List.mem_map, List.mem_filter,
      decide_eq_true_eq]
    constructor
    · rintro ⟨r, ⟨hr, hpos⟩, rfl⟩
      exact ⟨r, hr, hpos, rfl⟩
    · rintro ⟨r, hr, hpos, rfl⟩
      exact ⟨r, ⟨hr, hpos⟩, rfl⟩
  · intro raw b
    simp [KorbitAPI.get_nonzero_balances, KorbitAPI.get_balances,
      List.mem_filter, and_assoc]

/-! ## Reports -/

/-- A row of a per-exchange report DataFrame:
`{currency, balance, price, total, date[, exchange]}`. -/
structure ReportLine where
  currency : String
  balance : ℚ
  price : ℚ
  total : ℚ
  date : String
  exchange : Option String
deriving DecidableEq

/-- Descending-by-`total` comparison used by every
`sort_values(by="total", ascending=False)` call. -/
def lineGE (a b : ReportLine) : Prop := b.total ≤ a.total

instance : DecidableRel lineGE := fun a b =>
  inferInstanceAs (Decidable (b.total ≤ a.total))

instance : IsTotal ReportLine lineGE :=
  ⟨fun a b => le_total b.total a.total⟩

instance : IsTrans ReportLine lineGE :=
  ⟨fun _ _ _ hab hbc => le_trans hbc hab⟩

/-- `DataFrame.sort_values(by="total", ascending=False)`, modelled as a
sort by descending `total` (pandas leaves the relative order of equal
totals to its sort kind; nothing proved below depends on tie order). -/
def sort_values (l : List ReportLine) : List ReportLine :=
  List.insertionSort lineGE l

/-- Substring occurrence over character lists. -/
def hasSubstr (pat : List Char) : List Char → Bool
  | [] => pat.isEmpty
  | c :: rest => pat.isPrefixOf (c :: rest) || hasSubstr pat rest

/-- Python substring test `"Error" in s`. -/
def containsError (s : String) : Bool :=
  hasSubstr "Error".data s.data

/-- `f'{x:,.4f}'` followed by comma-stripping and `astype(float)` in
`KorbitAPI.get_report`: the value is rounded to four decimal places.
(Python's fixed-point formatting rounds half-to-even on the underlying
binary float; the rounding direction of ties is immaterial to every
property proved below, so the model uses `round`.) -/
def round4 (q : ℚ) : ℚ := (round (q * 10000) : ℚ) / 10000

namespace BithumbAPI

/-- Outcome of the `_request` call made by
`BithumbAPI.get_price_by_currency`: the empty-list sentinel `_request`
returns after a caught `RequestException`, or a ticker dict whose
`data` field is absent/falsy or carries a `closing_price` value. -/
inductive TickResp
  | req_error
  | payload (closing_price : Option PyNum)
deriving DecidableEq

/-- `BithumbAPI.get_price_by_currency` (`api_bithumb.py:99-108`): `0.0` on
a request error, an absent/falsy `data` field, or a
`ValueError`/`KeyError` while reading `closing_price`. -/
def get_price_by_currency (resp : TickResp) : ℚ :=
  match resp with
  | .req_error => 0
  | .payload none => 0
  | .payload (some (.val q)) => q
  | .payload (some .invalid) => 0

/-- `BithumbAPI.get_report` (`api_bithumb.py:111-135`) applied to the
accounts list returned by `get_balances`, with `tick` giving each
currency's ticker response: every account produces a line — a failed
price lookup contributes `price = 0.0` — and no sort is applied. -/
def get_report (accounts : List Balance) (tick : String → TickResp)
    (now : String) : List ReportLine :=
  if accounts.isEmpty then []
  else accounts.map fun a =>
    let price := if a.currency = "KRW" then 1
                 else get_price_by_currency (tick a.currency)
    ⟨a.currency, a.balance, price, a.balance * price, now, none⟩

end BithumbAPI

/-- Result of `CoinoneAPI.get_price_by_currency`: a float, or an error
string (the code's own error strings all contain `"Error"`). -/
inductive PriceOrErr
  | price (q : ℚ)
  | err (s : String)
deriving DecidableEq

namespace CoinoneAPI

/-- The report-building loop of `CoinoneAPI.get_report`
(`api_coinone.py:122-148`): a balance whose price is a string containing
`"Error"` is skipped; a string price without `"Error"` would reach
`price * balance_amount` and raise `TypeError` (unreachable from
`get_price_by_currency`, whose error strings all contain `"Error"`). -/
def buildLines (price_of : String → PriceOrErr) (now : String) :
    List Balance → Except String (List ReportLine)
  | [] => .ok []
  | b :: rest =>
    match price_of b.currency with
    | .err s =>
      if containsError s then buildLines price_of now rest
      else .error "TypeError: cannot multiply str by float"
    | .price p =>
      match buildLines price_of now rest with
      | .error e => .error e
      | .ok tail => .ok (⟨b.currency, b.balance, p, p * b.balance, now, none⟩ :: tail)

/-- `CoinoneAPI.get_report` (`api_coinone.py:122-152`) applied to the
balances list returned by `get_balances`: builds the lines, then
`sort_values(by="total", ascending=False)` — which raises `KeyError`
on the column-less empty DataFrame when every line was skipped. -/
def get_report (balances : List Balance) (price_of : String → PriceOrErr)
    (now : String) : Except String (List ReportLine) :=
  match buildLines price_of now balances with
  | .error e => .error e
  | .ok report_data =>
    if report_data.isEmpty then .error "KeyError: total"
    else .ok (sort_values report_data)

end CoinoneAPI

namespace UpbitAPI

/-- `UpbitAPI.get_report` (`api_upbit.py:96-114`): `bal` gives each
currency's `get_balance_by_currency` outcome (`none` = no balance) and
`price` each currency's `get_price_by_currency` outcome (`none` = price
fetch failed; otherwise the price and its formatted timestamp).  A
balance whose price is `None` is skipped; `sort_values` raises `KeyError`
on the column-less empty DataFrame when no line was built. -/
def get_report (currencies : List String) (bal : String → Option Balance)
    (price : String → Option (ℚ × String)) : Except String (List ReportLine) :=
  let report := currencies.filterMap fun c =>
    match bal c with
    | none => none
    | some b =>
      match price c with
      | none => none
      | some (p, ts) => some ⟨c, b.balance, p, b.balance * p, ts, none⟩
  if report.isEmpty then .error "KeyError: total"
  else .ok (sort_values report)

end UpbitAPI

namespace KorbitAPI

/-- `KorbitAPI.get_report` (`api_korbit.py:113-151`) applied to the
balances dict returned by `get_balances`: excluded coins are skipped, a
balance whose price is `None` is skipped, the frame is sorted descending
by total, `price` and `total` are formatted to four decimals (with
`total` parsed back to a float), and the frame is sorted again;
`sort_values` raises `KeyError` on the column-less empty DataFrame when
no line was built. -/
def get_report (balances : List KorbitBalance)
    (price : String → Option (ℚ × String)) : Except String (List ReportLine) :=
  let report := balances.filterMap fun b =>
    if pyLower b.currency ∈ ["ethw", "ethf"] then none
    else
      match price b.currency with
      | none => none
      | some (p, ts) =>
        some ⟨b.currency, b.available + b.locked, p,
          (b.available + b.locked) * p, ts, none⟩
  if report.isEmpty then .error "KeyError: total"
  else .ok (sort_values ((sort_values report).map fun l =>
    { l with price := round4 l.price, total := round4 l.total }))

end KorbitAPI

/-- C4 amended: Coinone's `get_report` (like Upbit's and Korbit's, whose
resolvers signal failure with `None`) skips exactly the balances whose
price resolution yields an error string, while other entries still
produce lines — with balances `[BTC, UNKNOWNCOIN]` where only BTC
resolves, the report has exactly one line; Bithumb's `get_report` instead
includes such entries as lines with price `0.0`. -/
theorem C4_coinone_skips_unpriced (balances : List Balance)
    (price_of : String → PriceOrErr) (now : String)
    (herr : ∀ c s, price_of c = .err s → containsError s = true) :
    CoinoneAPI.get_report balances price_of now =
      (let lines := balances.filterMap fun b =>
        match price_of b.currency with
        | .err _ => none
        | .price p => some ⟨b.currency, b.balance, p, p * b.balance, now, none⟩
      if lines.isEmpty then Except.error "KeyError: total"
      else Except.ok (sort_values lines)) := by
  have hbuild : CoinoneAPI.buildLines price_of now balances =
      .ok (balances.filterMap fun b =>
        match price_of b.currency with
        | .err _ => none
        | .price p => some ⟨b.currency, b.balance, p, p * b.balance, now, none⟩) := by
    induction balances with
    | nil => rfl
    | cons b rest ih =>
      cases hp : price_of b.currency with
      | err s =>
        have hce := herr b.currency s hp
        simp only [CoinoneAPI.buildLines, hp, if_pos hce, ih,
          List.filterMap_cons]
      | price p =>
        simp only [CoinoneAPI.buildLines, hp, ih, List.filterMap_cons]
  unfold CoinoneAPI.get_report
  rw [hbuild]

/-- A concrete Coinone resolver for which only BTC yields a price. -/
def onlyBtcPrices : String → PriceOrErr := fun c =>
  if c = "BTC" then .price 100 else .err "Error: Invalid Coinone price data"

/-- Witness for C4's amended theorem: with balances `[BTC, UNKNOWNCOIN]`
and only BTC resolving, Coinone's report has exactly the one BTC line. -/
theorem C4_coinone_skips_unpriced_witness :
    CoinoneAPI.get_report [⟨"BTC", 1⟩, ⟨"UNKNOWNCOIN", 5⟩] onlyBtcPrices
        "2025-01-01 00:00:00" =
      .ok [⟨"BTC", 1, 100, 100 * 1, "2025-01-01 00:00:00", none⟩] := by
  have herr : ∀ c s, onlyBtcPrices c = .err s → containsError s = true := by
    intro c s h
    unfold onlyBtcPrices at h
    split at h
    · exact PriceOrErr.noConfusion h
    · cases h
      decide
  have h := C4_coinone_skips_unpriced [⟨"BTC", 1⟩, ⟨"UNKNOWNCOIN", 5⟩]
    onlyBtcPrices "2025-01-01 00:00:00" herr
  rw [h]
  rfl

/-- A concrete Bithumb ticker oracle for which only BTC has a price and
every other lookup hits a request error. -/
def btcOnlyTick : String → BithumbAPI.TickResp := fun c =>
  if c = "BTC" then .payload (some (.val 100)) else .req_error

/-- Counterexample to C4 as stated: Bithumb's `get_report` on balances
`[BTC, UNKNOWNCOIN]` where only BTC's price resolves does NOT skip the
failed entry — it emits two lines, the second with price `0.0`. -/
theorem C4_counterexample :
    (BithumbAPI.get_report [⟨"BTC", 1⟩, ⟨"UNKNOWNCOIN", 5⟩] btcOnlyTick
        "2025-01-01 00:00:00").length ≠ 1 ∧
    (BithumbAPI.get_report [⟨"BTC", 1⟩, ⟨"UNKNOWNCOIN", 5⟩] btcOnlyTick
        "2025-01-01 00:00:00").get? 1 =
      some ⟨"UNKNOWNCOIN", 5, 0, 5 * 0, "2025-01-01 00:00:00", none⟩ := by
  exact ⟨by decide, rfl⟩

/-- Every `.ok` branch of the report builders carries a `sort_values`
result, hence a list sorted descending by `total`. -/
lemma sorted_of_ite_ok {P : Prop} [Decidable P] {msg : String}
    {x lines : List ReportLine}
    (h : (if P then Except.error msg else Except.ok (sort_values x)) =
      Except.ok lines) : lines.Sorted lineGE := by
  split_ifs at h
  all_goals
    first
      | exact Except.noConfusion h
      | · simp only [Except.ok.injEq] at h
          rw [← h]
          exact List.sorted_insertionSort lineGE _

/-- C5 amended: Upbit's, Coinone's and Korbit's `get_report` return their
lines sorted in descending order of `total` (the sort delegates tie order
to pandas' sort kind, so no tie-order guarantee is claimed); Bithumb's
`get_report` applies no sort and returns lines in input-balance order. -/
theorem C5_reports_sorted_desc :
    (∀ (cs : List String) (bal : String → Option Balance)
        (price : String → Option (ℚ × String)) (lines : List ReportLine),
      UpbitAPI.get_report cs bal price = .ok lines → lines.Sorted lineGE) ∧
    (∀ (bs : List Balance) (po : String → PriceOrErr) (now : String)
        (lines : List ReportLine),
      CoinoneAPI.get_report bs po now = .ok lines → lines.Sorted lineGE) ∧
    (∀ (bs : List KorbitBalance) (price : String → Option (ℚ × String))
        (lines : List ReportLine),
      KorbitAPI.get_report bs price = .ok lines → lines.Sorted lineGE) ∧
    (∀ (accounts : List Balance) (tick : String → BithumbAPI.TickResp)
        (now : String),
      (BithumbAPI.get_report accounts tick now).map (fun l => l.currency) =
        if accounts.isEmpty then [] else accounts.map fun a => a.currency) := by
  refine ⟨?_, ?_, ?_, ?_⟩
  · intro cs bal price lines h
    exact sorted_of_ite_ok h
  · intro bs po now lines h
    unfold CoinoneAPI.get_report at h
    rcases hb : CoinoneAPI.buildLines po now bs with e | rd
    · rw [hb] at h
      exact Except.noConfusion h
    · rw [hb] at h
      exact sorted_of_ite_ok h
  · intro bs price lines h
    exact sorted_of_ite_ok h
  · intro accounts tick now
    unfold BithumbAPI.get_report
    split_ifs with he
    · rfl
    · simp [List.map_map]

/-- Witness for C5's amended theorem: a concrete Upbit report is sorted. -/
theorem C5_reports_sorted_desc_witness :
    (sort_values [⟨"BTC", 1, 100, 1 * 100, "d", none⟩]).Sorted lineGE :=
  C5_reports_sorted_desc.1 ["BTC"] (fun _ => some ⟨"BTC", 1⟩)
    (fun _ => some (100, "d")) _ rfl

/-- A concrete Bithumb ticker oracle producing ascending totals. -/
def ascTick : String → BithumbAPI.TickResp := fun c =>
  if c = "AAA" then .payload (some (.val 1)) else .payload (some (.val 100))

/-- Counterexample to C5 as stated: Bithumb's `get_report` applies no
sort, so with balances `[AAA, BBB]` priced `1` and `100` the output totals
are ascending, not descending. -/
theorem C5_counterexample :
    ¬ (BithumbAPI.get_report [⟨"AAA", 1⟩, ⟨"BBB", 1⟩] ascTick "d").Sorted
        lineGE := by
  intro h
  have heq : BithumbAPI.get_report [⟨"AAA", 1⟩, ⟨"BBB", 1⟩] ascTick "d" =
      [⟨"AAA", 1, 1, 1 * 1, "d", none⟩, ⟨"BBB", 1, 100, 1 * 100, "d", none⟩] := rfl
  rw [heq] at h
  have hrel := List.rel_of_sorted_cons h _ (List.mem_cons_self _ _)
  have : (1 : ℚ) * 100 ≤ 1 * 1 := hrel
  norm_num at this

/-! ## Aggregator (`cex_agg.py`) -/

/-- `df['exchange'] = name`: tag every line with its exchange. -/
def tag (name : String) (df : List ReportLine) : List ReportLine :=
  df.map fun l => { l with exchange := some name }

namespace Aggregator

/-- `Aggregator.get_report` (`cex_agg.py:16-54`).  Each argument is the
outcome of one exchange's `get_report_with_nonzero_balances` (`.error` =
it raised).  The Python body evaluates the four calls sequentially inside
a SINGLE `try`: any raise reaches the one `except`, which returns an
empty DataFrame — dropping even the frames already collected.  Otherwise
the non-empty frames are tagged, concatenated and sorted descending by
total. -/
def get_report (bithumb coinone korbit upbit : Except String (List ReportLine)) :
    List ReportLine :=
  match bithumb, coinone, korbit, upbit with
  | .ok bdf, .ok cdf, .ok kdf, .ok udf =>
    let dfs : List (List ReportLine) :=
      (if bdf.isEmpty then [] else [tag "Bithumb" bdf]) ++
      (if cdf.isEmpty then [] else [tag "Coinone" cdf]) ++
      (if kdf.isEmpty then [] else [tag "Korbit" kdf]) ++
      (if udf.isEmpty then [] else [tag "Upbit" udf])
    if dfs.isEmpty then [] else sort_values dfs.flatten
  | _, _, _, _ => []

end Aggregator

/-- A concrete successful report line. -/
def btcLine : ReportLine := ⟨"BTC", 1, 100, 100, "2025-01-01 00:00:00", none⟩

/-- Counterexample to C2 as stated: Bithumb's report succeeds with one
line, Coinone's raises — yet the aggregate is empty: the surviving
exchange's lines are NOT returned. -/
theorem C2_counterexample :
    Aggregator.get_report (.ok [btcLine]) (.error "Error getting access token")
        (.ok []) (.ok []) = [] ∧
    tag "Bithumb" [btcLine] ≠ [] :=
  ⟨rfl, by decide⟩

/-- C2 amended: a raise while building ANY exchange's report makes
`Aggregator.get_report` return an empty report, discarding every
exchange's lines; only when all four report calls return normally does
each exchange with a non-empty report contribute its tagged lines to the
sorted aggregate. -/
theorem C2_failure_empties_aggregate
    (b c k u : Except String (List ReportLine)) :
    (∀ e, (b = .error e ∨ c = .error e ∨ k = .error e ∨ u = .error e) →
      Aggregator.get_report b c k u = []) ∧
    (∀ bdf cdf kdf udf, b = .ok bdf → c = .ok cdf → k = .ok kdf →
      u = .ok udf →
      Aggregator.get_report b c k u =
        (let dfs : List (List ReportLine) :=
          (if bdf.isEmpty then [] else [tag "Bithumb" bdf]) ++
          (if cdf.isEmpty then [] else [tag "Coinone" cdf]) ++
          (if kdf.isEmpty then [] else [tag "Korbit" kdf]) ++
          (if udf.isEmpty then [] else [tag "Upbit" udf])
        if dfs.isEmpty then [] else sort_values dfs.flatten)) := by
  constructor
  · rintro e (rfl | rfl | rfl | rfl)
    · cases c <;> cases k <;> cases u <;> rfl
    · cases b <;> cases k <;> cases u <;> rfl
    · cases b <;> cases c <;> cases u <;> rfl
    · cases b <;> cases c <;> cases k <;> rfl
  · rintro bdf cdf kdf udf rfl rfl rfl rfl
    rfl

/-- Witness for C2's amended theorem: a concrete failing run and a
concrete all-success run. -/
theorem C2_failure_empties_aggregate_witness :
    Aggregator.get_report (.ok []) (.ok []) (.error "boom") (.ok []) = [] ∧
    Aggregator.get_report (.ok [btcLine]) (.ok []) (.ok []) (.ok []) =
      sort_values (tag "Bithumb" [btcLine]) := by
  have h1 := C2_failure_empties_aggregate (.ok []) (.ok []) (.error "boom")
    (.ok [])
  have h2 := C2_failure_empties_aggregate (.ok [btcLine]) (.ok []) (.ok [])
    (.ok [])
  refine ⟨h1.1 "boom" (Or.inr (Or.inr (Or.inl rfl))), ?_⟩
  have he := h2.2 [btcLine] [] [] [] rfl rfl rfl rfl
  rw [he]
  rfl

/-! ## Korbit OAuth2 token cache (`api_korbit.py`) -/

/-- The mutable token state of a `KorbitAPI` instance:
`self.access_token` and `self.token_expires_at` (initially `None`/`0`). -/
structure KorbitState where
  access_token : Option String
  token_expires_at : ℚ
deriving DecidableEq

/-- Outcome of the client-credentials grant POST. -/
inductive GrantResult
  | ok (access_token : String) (expires_in : ℚ)
  | fail (msg : String)
deriving DecidableEq

namespace KorbitAPI

/-- `KorbitAPI._get_access_token` (`api_korbit.py:22-41`), taking the
current wall-clock time and the grant outcome as inputs: if
`time.time() < self.token_expires_at` the cached session is reused and no
request is made; otherwise one grant request is performed — on success
the new token is cached with
`token_expires_at = now + expires_in - 60`, on failure the exception is
re-raised.  The result pairs the new state (or raised error) with the
number of grant requests performed. -/
def get_access_token (st : KorbitState) (now : ℚ) (grant : GrantResult) :
    Except String KorbitState × Nat :=
  if now < st.token_expires_at then (.ok st, 0)
  else
    match grant with
    | .ok tok e => (.ok ⟨some tok, now + e - 60⟩, 1)
    | .fail m => (.error m, 1)

end KorbitAPI

/-- C7: after a successful grant returning `expires_in` at time `t` (with
no live cached session), the cached session records
`expires_at = t + expires_in − 60`; every call strictly before that
instant reuses the cached state with zero grant requests, and a call at
or after it performs exactly one new grant request. -/
theorem C7_token_cache_expiry (st : KorbitState) (t e : ℚ) (tok : String)
    (hexp : ¬ t < st.token_expires_at) :
    KorbitAPI.get_access_token st t (.ok tok e) =
      (.ok ⟨some tok, t + e - 60⟩, 1) ∧
    (∀ t' g, t' < t + e - 60 →
      KorbitAPI.get_access_token ⟨some tok, t + e - 60⟩ t' g =
        (.ok ⟨some tok, t + e - 60⟩, 0)) ∧
    (∀ t' tok2 e2, ¬ t' < t + e - 60 →
      KorbitAPI.get_access_token ⟨some tok, t + e - 60⟩ t' (.ok tok2 e2) =
        (.ok ⟨some tok2, t' + e2 - 60⟩, 1)) := by
  refine ⟨?_, ?_, ?_⟩
  · unfold KorbitAPI.get_access_token
    rw [if_neg hexp]
  · intro t' g h
    unfold KorbitAPI.get_access_token
    rw [if_pos h]
  · intro t' tok2 e2 h
    unfold KorbitAPI.get_access_token
    rw [if_neg h]

/-- Witness for C7 on concrete times: grant at `t = 1000` with
`expires_in = 300` caches until `1240`; a call at `1100` is a cache hit
even though the grant endpoint is down; a call at `1240` refreshes once. -/
theorem C7_token_cache_expiry_witness :
    KorbitAPI.get_access_token ⟨none, 0⟩ 1000 (.ok "tok" 300) =
      (.ok ⟨some "tok", 1000 + 300 - 60⟩, 1) ∧
    KorbitAPI.get_access_token ⟨some "tok", 1000 + 300 - 60⟩ 1100
        (.fail "down") = (.ok ⟨some "tok", 1000 + 300 - 60⟩, 0) ∧
    KorbitAPI.get_access_token ⟨some "tok", 1000 + 300 - 60⟩ 1240
        (.ok "tok2" 300) = (.ok ⟨some "tok2", 1240 + 300 - 60⟩, 1) := by
  have h := C7_token_cache_expiry ⟨none, 0⟩ 1000 300 "tok" (by norm_num)
  exact ⟨h.1, h.2.1 1100 _ (by norm_num), h.2.2 1240 "tok2" 300 (by norm_num)⟩

/-- Counterexample to C9 as stated: with `expires_in = 120` acquired at
`t0 = 0`, the cache records `expires_at = 0 + 120 - 60`; the call at
`0 + 61` is NOT a cache hit — it performs one grant request (second
component `1`, and the token is replaced). -/
theorem C9_counterexample :
    KorbitAPI.get_access_token ⟨some "tok", 0 + 120 - 60⟩ (0 + 61)
        (.ok "tok2" 120) = (.ok ⟨some "tok2", 0 + 61 + 120 - 60⟩, 1) := by
  unfold KorbitAPI.get_access_token
  rw [if_neg (by norm_num)]

/-- C9 amended: with `expires_in = 120` at acquisition time `t0`, a call
strictly before `t0 + 60` (more than 60 seconds before nominal expiry)
triggers no refresh, while a call at or after `t0 + 60` — within the last
60 seconds of the token's 120-second validity, such as `t0 + 61` —
performs exactly one grant request. -/
theorem C9_sixty_second_margin (t0 : ℚ) (tok : String) :
    (∀ t' g, t' < t0 + 120 - 60 →
      KorbitAPI.get_access_token ⟨some tok, t0 + 120 - 60⟩ t' g =
        (.ok ⟨some tok, t0 + 120 - 60⟩, 0)) ∧
    (∀ t' tok2 e2, ¬ t' < t0 + 120 - 60 →
      KorbitAPI.get_access_token ⟨some tok, t0 + 120 - 60⟩ t'
          (.ok tok2 e2) = (.ok ⟨some tok2, t' + e2 - 60⟩, 1)) ∧
    ¬ t0 + 61 < t0 + 120 - 60 := by
  refine ⟨?_, ?_, by intro hlt; linarith⟩
  · intro t' g h
    unfold KorbitAPI.get_access_token
    rw [if_pos h]
  · intro t' tok2 e2 h
    unfold KorbitAPI.get_access_token
    rw [if_neg h]

/-- Witness for C9's amended theorem at `t0 = 0`: a call at `+59` is a
cache hit even with the grant endpoint down; a call at `+61` refreshes. -/
theorem C9_sixty_second_margin_witness :
    KorbitAPI.get_access_token ⟨some "tok", 0 + 120 - 60⟩ 59 (.fail "down") =
      (.ok ⟨some "tok", 0 + 120 - 60⟩, 0) ∧
    KorbitAPI.get_access_token ⟨some "tok", 0 + 120 - 60⟩ 61
        (.ok "tok2" 120) = (.ok ⟨some "tok2", 61 + 120 - 60⟩, 1) := by
  have h := C9_sixty_second_margin 0 "tok"
  exact ⟨h.1 59 _ (by norm_num), h.2.1 61 "tok2" 120 (by norm_num)⟩

/-! ## Transport handling (`_request` / `_post_request` layers) -/

/-- Outcome of one HTTP attempt: a response (2xx flag, and the parsed JSON
body when the bytes parse), or a raised connection/timeout failure. -/
inductive HttpAttempt (α : Type)
  | response (ok2xx : Bool) (body : Option α)
  | net_fail (msg : String)
deriving DecidableEq

/-- What a Python call does for the caller: return a value, degrade to the
empty/zero result, or raise. -/
inductive CallResult (α : Type)
  | value (a : α)
  | degraded
  | raised (msg : String)
deriving DecidableEq

namespace CoinoneAPI

/-- `CoinoneAPI._post_request` (`api_coinone.py:38-47`): no `try`, no
`raise_for_status` — the parsed body is returned whatever the status
code, while a connection failure or unparseable body raises. -/
def post_request {α : Type} (t : HttpAttempt α) : CallResult α :=
  match t with
  | .response _ (some b) => .value b
  | .response _ none => .raised "JSONDecodeError"
  | .net_fail m => .raised m

end CoinoneAPI

namespace BithumbAPI

/-- `BithumbAPI._request` (`api_bithumb.py:29-44`): `raise_for_status`
and `response.json()` run inside `try ... except RequestException`, which
also covers requests' `JSONDecodeError`; every failure degrades to the
empty-list sentinel. -/
def request {α : Type} (t : HttpAttempt α) : CallResult α :=
  match t with
  | .response true (some b) => .value b
  | .response true none => .degraded
  | .response false _ => .degraded
  | .net_fail _ => .degraded

end BithumbAPI

namespace UpbitAPI

/-- `UpbitAPI.get_balances` (`api_upbit.py:47-62`) including its network
stage: `requests.get` and `response.json()` run OUTSIDE any `try`, so a
connection failure or unparseable body raises; only a non-200 status is
handled (empty result). -/
def get_balances_call (t : HttpAttempt (List RawAccount))
    (currencies : Option (List String)) : CallResult (List Balance) :=
  match t with
  | .response true (some raw) => .value (get_balances raw currencies)
  | .response true none => .raised "JSONDecodeError"
  | .response false _ => .degraded
  | .net_fail m => .raised m

end UpbitAPI

namespace KorbitAPI

/-- `KorbitAPI.get_balances` (`api_korbit.py:49-79`) including its network
stage: the body runs inside `try ... except RequestException`, so any
transport failure, non-2xx status or unparseable body degrades to an
empty dict. -/
def get_balances_call (t : HttpAttempt (List KorbitRaw))
    (currencies : Option (List String)) : CallResult (List KorbitBalance) :=
  match t with
  | .response true (some raw) => .value (get_balances raw currencies)
  | .response true none => .degraded
  | .response false _ => .degraded
  | .net_fail _ => .degraded

end KorbitAPI

/-- Counterexample to C8 as stated: Coinone's signed balance transport
(`_post_request`) re-raises a plain connection failure instead of
degrading it to an empty or error-valued result. -/
theorem C8_counterexample :
    CoinoneAPI.post_request
        (.net_fail "ConnectionError" : HttpAttempt (List CoinoneRawBalance)) =
      .raised "ConnectionError" := rfl

/-- C8 amended: Bithumb's `_request` and Korbit's balance call convert
every transport failure, non-2xx status and malformed body into an
empty result and never raise; Upbit's balance call degrades only a
non-200 status and raises on connection failure or malformed JSON;
Coinone's `_post_request` raises on connection failure or malformed JSON
(and never inspects the status); and the OAuth2 grant failure propagates
as a raise (after one grant request). -/
theorem C8_transport_error_handling :
    (∀ (α : Type) (t : HttpAttempt α) (m : String),
      BithumbAPI.request t ≠ CallResult.raised m) ∧
    (∀ (t : HttpAttempt (List KorbitRaw)) (cs : Option (List String))
        (m : String),
      KorbitAPI.get_balances_call t cs ≠ CallResult.raised m) ∧
    (∀ (t : HttpAttempt (List RawAccount)) (cs : Option (List String))
        (m : String),
      UpbitAPI.get_balances_call t cs = CallResult.raised m ↔
        (t = .net_fail m ∨
          (t = .response true none ∧ m = "JSONDecodeError"))) ∧
    (∀ (α : Type) (t : HttpAttempt α) (m : String),
      CoinoneAPI.post_request t = CallResult.raised m ↔
        (t = .net_fail m ∨
          ((∃ ok2xx, t = .response ok2xx none) ∧ m = "JSONDecodeError"))) ∧
    (∀ (st : KorbitState) (t : ℚ) (m : String), ¬ t < st.token_expires_at →
      KorbitAPI.get_access_token st t (.fail m) = (.error m, 1)) := by
  refine ⟨?_, ?_, ?_, ?_, ?_⟩
  · intro α t m
    rcases t with ⟨(_ | _), (_ | b)⟩ | m' <;> simp [BithumbAPI.request]
  · intro t cs m
    rcases t with ⟨(_ | _), (_ | b)⟩ | m' <;> simp [KorbitAPI.get_balances_call]
  · intro t cs m
    rcases t with ⟨(_ | _), (_ | b)⟩ | m' <;>
      simp [UpbitAPI.get_balances_call, eq_comm]
  · intro α t m
    rcases t with ⟨(_ | _), (_ | b)⟩ | m' <;>
      simp [CoinoneAPI.post_request, eq_comm]
  · intro st t m h
    unfold KorbitAPI.get_access_token
    rw [if_neg h]

/-- Witness for C8's amended theorem at concrete transport outcomes. -/
theorem C8_transport_error_handling_witness :
    BithumbAPI.request
        (.net_fail "timeout" : HttpAttempt (List RawAccount)) ≠
      CallResult.raised "timeout" ∧
    KorbitAPI.get_access_token ⟨none, 0⟩ 5 (.fail "grant refused") =
      (.error "grant refused", 1) := by
  have h := C8_transport_error_handling
  exact ⟨h.1 _ _ _, h.2.2.2.2 ⟨none, 0⟩ 5 "grant refused" (by norm_num)⟩

end CexAgg
